import Mathlib

/-!
Verification development for the referral commission ledger
(packages/api + packages/db of the takehome repository).

The source performs every money computation through decimal.js configured in
`packages/api/src/utils/decimal.ts` as

  Decimal.set({ precision: 28, rounding: Decimal.ROUND_DOWN, toExpNeg: -18, toExpPos: 28 })

We embed that arithmetic shallowly: a decimal value is an integer significand
together with a power-of-ten exponent (value = m * 10^e).  The decimal.js
constructor is exact; `plus` and `times` compute the exact result and then
round it to 28 significant digits with ROUND_DOWN (truncation toward zero);
`equals` compares numeric values exactly.  Representations are not canonical
(trailing zeros in the significand are allowed); all operations below are
value-faithful to decimal.js, and every comparison goes through the exact
value equality `dEq`.

The user/referral graph operations (`getUplineChain` of utils/commission.ts
and `register` of the referral router) are embedded over an explicit
association-list user store; recursive SQL CTEs become fuel-bounded walks
with the same level cutoff.  `withSerializableTransaction`
(utils/transaction.ts) is embedded as a function of the per-attempt outcome
sequence, returning the surfaced outcome together with the list of backoff
delays it would sleep.
-/

/-- A decimal value `m * 10 ^ e`, mirroring decimal.js's
sign/digits/exponent representation shallowly. -/
structure Dec where
  m : Int
  e : Int
  deriving DecidableEq

/-- decimal.ts sets `precision: 28`. -/
def decPrec : Nat := 28

/-- Truncation of a significand to `decPrec` significant digits, dropping one
trailing digit at a time (toward zero, i.e. `ROUND_DOWN`).  The fuel argument
only bounds the recursion; it is always large enough in `roundDec`. -/
def shrink : Nat → Int → Int → Dec
  | 0, m, e => ⟨m, e⟩
  | fuel + 1, m, e =>
    if m.natAbs < 10 ^ decPrec then ⟨m, e⟩
    else shrink fuel (m.tdiv 10) (e + 1)

/-- Rounding applied by decimal.js after every arithmetic operation:
the exact result is kept when it fits in 28 significant digits, otherwise
its significand is truncated toward zero.  Dropping a trailing zero digit is
value-lossless, so this agrees with decimal.js's significant-digit count
(which ignores trailing zeros) up to value equality. -/
def roundDec (d : Dec) : Dec := shrink d.m.natAbs d.m d.e

/-- `Decimal.prototype.equals`: exact comparison of numeric values. -/
def dEq (a b : Dec) : Bool :=
  a.m * (10 : Int) ^ (a.e - min a.e b.e).toNat
    == b.m * (10 : Int) ^ (b.e - min a.e b.e).toNat

/-- `Decimal.prototype.plus`: exact sum, then rounding to 28 significant
digits (ROUND_DOWN). -/
def dAdd (a b : Dec) : Dec :=
  let e := min a.e b.e
  roundDec ⟨a.m * (10 : Int) ^ (a.e - e).toNat + b.m * (10 : Int) ^ (b.e - e).toNat, e⟩

/-- `Decimal.prototype.times`: exact product, then rounding to 28 significant
digits (ROUND_DOWN). -/
def dMul (a b : Dec) : Dec :=
  roundDec ⟨a.m * b.m, a.e + b.e⟩

/-- `sum(...values)` from utils/decimal.ts:
`values.reduce((acc, val) => acc.plus(val), new Decimal(0))`. -/
def sumDec (vs : List Dec) : Dec := vs.foldl dAdd ⟨0, 0⟩

/-- The five global rate constants of utils/commission.ts
(`COMMISSION_RATES`), built from the exact decimal strings
'0.30', '0.03', '0.02', '0.10', '0.55'. -/
structure Rates where
  LEVEL_1 : Dec
  LEVEL_2 : Dec
  LEVEL_3 : Dec
  CASHBACK : Dec
  TREASURY : Dec

def COMMISSION_RATES : Rates :=
  { LEVEL_1 := ⟨30, -2⟩
    LEVEL_2 := ⟨3, -2⟩
    LEVEL_3 := ⟨2, -2⟩
    CASHBACK := ⟨10, -2⟩
    TREASURY := ⟨55, -2⟩ }

/-- Result record of `calculateCommissionBreakdown` (utils/commission.ts). -/
structure Breakdown where
  cashback : Dec
  level1 : Dec
  level2 : Dec
  level3 : Dec
  treasury : Dec
  deriving DecidableEq

/-- `calculateCommissionBreakdown` from utils/commission.ts: each share is
`fee.times(rate)` under the configured decimal arithmetic. -/
def calculateCommissionBreakdown (fee : Dec) : Breakdown :=
  { cashback := dMul fee COMMISSION_RATES.CASHBACK
    level1 := dMul fee COMMISSION_RATES.LEVEL_1
    level2 := dMul fee COMMISSION_RATES.LEVEL_2
    level3 := dMul fee COMMISSION_RATES.LEVEL_3
    treasury := dMul fee COMMISSION_RATES.TREASURY }

/-- `validateCommissionSum` from utils/commission.ts: recomputes
`sum(cashback, level1, level2, level3, treasury)` and compares it to the fee
with `equals`. -/
def validateCommissionSum (fee : Dec) (b : Breakdown) : Bool :=
  dEq (sumDec [b.cashback, b.level1, b.level2, b.level3, b.treasury]) fee

/-- The numeric content of `toDecimalString` (utils/decimal.ts):
`new Decimal(value).toFixed(18)` pads or truncates (ROUND_DOWN, toward zero)
the value to exactly 18 fractional digits; the string denotes the integer
returned here times 10^-18. -/
def toFixed18 (d : Dec) : Int :=
  if -18 ≤ d.e then d.m * (10 : Int) ^ (d.e + 18).toNat
  else d.m.tdiv ((10 : Int) ^ (-18 - d.e).toNat)

/-- `decimal(toDecimalString(x))`: parsing a decimal string is exact in
decimal.js, so the round trip yields `toFixed18 d` at exponent -18. -/
def roundTripDecimalString (d : Dec) : Dec := ⟨toFixed18 d, -18⟩

/-- A row of the `user` table, restricted to the columns the referral graph
operations read: `referrer_id`, `referral_code`, `referral_depth`. -/
structure UserRec where
  referrerId : Option String
  referralCode : Option String
  referralDepth : Nat
  deriving DecidableEq

/-- The user table as an association list keyed by user id. -/
abbrev UserStore := List (String × UserRec)

/-- `SELECT ... FROM "user" WHERE id = ...` (first match by id). -/
def lookupUser : UserStore → String → Option UserRec
  | [], _ => none
  | (k, v) :: rest, id => if k = id then some v else lookupUser rest id

/-- The recursive step of the upline CTE in `getUplineChain`
(utils/commission.ts): follow `referrer_id` upward, emitting `(id, level)`
rows with increasing level, while the previous row's level is below 3
(fuel = remaining levels).  The chain stops at a missing referrer row or a
null `referrer_id`. -/
def uplineGo (s : UserStore) : Nat → Option String → Nat → List (String × Nat)
  | 0, _, _ => []
  | _ + 1, none, _ => []
  | fuel + 1, some rid, lvl =>
    match lookupUser s rid with
    | none => []
    | some r => (rid, lvl) :: uplineGo s fuel r.referrerId (lvl + 1)

/-- `getUplineChain` from utils/commission.ts: the recursive CTE seeded with
the user row at level 0, selecting `id, level` for `level > 0` ordered by
level, truncated by `WHERE up.level < 3`. -/
def getUplineChain (s : UserStore) (uid : String) : List (String × Nat) :=
  match lookupUser s uid with
  | none => []
  | some u => uplineGo s 3 u.referrerId 1

/-- Leading/trailing-whitespace trim on the character list of a string
(`String.prototype.trim`). -/
def trimChars (cs : List Char) : List Char :=
  ((cs.dropWhile Char.isWhitespace).reverse.dropWhile Char.isWhitespace).reverse

/-- `normalizeReferralCode` from utils/referral-code.ts:
`code.trim().toUpperCase()`. -/
def normalizeReferralCode (c : String) : String :=
  ⟨(trimChars c.data).map Char.toUpper⟩

/-- `isValidReferralCodeFormat` from utils/referral-code.ts:
the regex `[A-Z0-9-]{4,20}` with the case-insensitive flag. -/
def isValidReferralCodeFormat (c : String) : Bool :=
  4 ≤ c.length && c.length ≤ 20 &&
    c.data.all (fun ch => ch.isAlpha || ch.isDigit || ch == '-')

/-- JavaScript truthiness of the nullable `referralCode` column
(`if (currentUser.referralCode)`): null and the empty string are falsy. -/
def truthy : Option String → Bool
  | none => false
  | some s => !s.isEmpty

/-- `db.query.user.findFirst({ where: eq(user.referralCode, code) })`. -/
def findByCode : UserStore → String → Option (String × UserRec)
  | [], _ => none
  | (k, v) :: rest, code =>
    if v.referralCode = some code then some (k, v) else findByCode rest code

/-- One expansion step of the downline CTE: all users whose `referrer_id`
is in the given set. -/
def childrenOf (s : UserStore) (ids : List String) : List String :=
  (s.filter (fun p =>
    match p.2.referrerId with
    | some pr => ids.contains pr
    | none => false)).map (fun p => p.1)

/-- Iterated expansion of the downline set (with deduplication so that the
iteration converges; `s.length` iterations cover every reachable user). -/
def downlineIter (s : UserStore) : Nat → List String → List String
  | 0, acc => acc
  | fuel + 1, acc =>
    downlineIter s fuel (acc ++ ((childrenOf s acc).filter (fun id => !acc.contains id)))

/-- The recursive downline CTE of `referralRouter.register`: `target` is in
the downline of `root` (the CTE's seed row includes `root` itself). -/
def inDownline (s : UserStore) (root target : String) : Bool :=
  (downlineIter s s.length [root]).contains target

/-- Rejections of `referralRouter.register`, in the order the source checks
them.  `CircularReference` corresponds to the TRPCError with message
'Cannot create circular referral relationship'. -/
inductive RegError where
  | NotFound
  | AlreadyReferred
  | InvalidFormat
  | CodeNotFound
  | SelfReferral
  | MaxDepth
  | CircularReference
  deriving DecidableEq

/-- In-place update of one user row (`db.update(user).set(...).where(eq(user.id, ...))`). -/
def updateUser : UserStore → String → UserRec → UserStore
  | [], _, _ => []
  | (k, v) :: rest, id, nv =>
    if k = id then (k, nv) :: rest else (k, v) :: updateUser rest id nv

/-- `referralRouter.register` (T026): normalize the input code, look up the
caller, reject if a referrer is already set, if the code format is invalid,
if no user owns the code, on self-referral, or when the referrer is at
depth 3; run the circular-reference downline check only when the caller's
own `referralCode` is truthy; otherwise write `referrerId` and
`referralDepth := referrer.depth + 1`.  An error return models the thrown
TRPCError: the UPDATE statement is only reached on the `.ok` path, so no
write occurs on any error. -/
def register (s : UserStore) (uid : String) (inputCode : String) :
    Except RegError UserStore :=
  let normalizedCode := normalizeReferralCode inputCode
  match lookupUser s uid with
  | none => .error .NotFound
  | some currentUser =>
    if currentUser.referrerId.isSome then .error .AlreadyReferred
    else if !isValidReferralCodeFormat normalizedCode then .error .InvalidFormat
    else
      match findByCode s normalizedCode with
      | none => .error .CodeNotFound
      | some (rid, referrer) =>
        if rid = uid then .error .SelfReferral
        else if 3 ≤ referrer.referralDepth then .error .MaxDepth
        else if truthy currentUser.referralCode && inDownline s uid rid then
          .error .CircularReference
        else
          .ok (updateUser s uid
            ⟨some rid, currentUser.referralCode, referrer.referralDepth + 1⟩)

/-- A commission ledger entry produced by distribution. -/
structure CommissionEntry where
  userId : String
  level : Nat
  amount : Dec
  deriving DecidableEq

/-- Result of the distribution engine. -/
structure DistResult where
  commissions : List CommissionEntry
  cashbackAmount : Dec
  treasuryAmount : Dec
  deriving DecidableEq

/-- The nominal share of a level (level1 / level2 / level3 of the
breakdown). -/
def nominalShare (b : Breakdown) (lvl : Nat) : Dec :=
  if lvl = 1 then b.level1 else if lvl = 2 then b.level2 else b.level3

/-- Modelled from the spec: `calculateCommissions` of utils/commission.ts is
not under src/ (only its tests and callers are).  Following §4.3 of the
spec: compute the nominal shares with `calculateCommissionBreakdown`
(src), resolve the trader's upline with `getUplineChain` (src), emit one
commission per live upline level at its nominal share, pay cashback to the
trader always, and add the nominal share of every level without a live
upline member to the base treasury share. -/
def calculateCommissions (s : UserStore) (uid : String) (fee : Dec) : DistResult :=
  let b := calculateCommissionBreakdown fee
  let upline := getUplineChain s uid
  { commissions := upline.map (fun p => CommissionEntry.mk p.1 p.2 (nominalShare b p.2))
    cashbackAmount := b.cashback
    treasuryAmount :=
      ((([1, 2, 3].filter (fun lvl => !((upline.map Prod.snd).contains lvl))).map
        (nominalShare b)).foldl dAdd b.treasury) }

/-- A commission/cashback row as the claim operation sees it. -/
structure LedgerRow where
  id : String
  userId : String
  amount : Dec
  claimed : Bool
  claimedAt : Option Nat
  deriving DecidableEq

/-- Modelled from the spec: the Claim Engine (§4.5) is not under src/ (only
the integration test 'should prevent double claiming' is).  The claim
operation's write is the conditional update
`SET claimed = true, claimed_at = now WHERE id = rowId AND claimed = false`;
the returned count is the number of affected rows. -/
def claimRowUpdate (rows : List LedgerRow) (rowId : String) (now : Nat) :
    List LedgerRow × Nat :=
  (rows.map (fun r =>
    if r.id = rowId ∧ r.claimed = false then
      ⟨r.id, r.userId, r.amount, true, some now⟩ else r),
   (rows.filter (fun r => r.id == rowId && !r.claimed)).length)

/-- An error surfaced by the store inside one transaction attempt;
`code` models `error.code` (e.g. '40001' for a serialization failure,
'23505' for a unique-constraint violation). -/
structure StoreErr where
  code : Option String
  deriving DecidableEq

/-- What `withSerializableTransaction` can do overall: return a value,
rethrow a store error from some attempt, or (after the loop) throw the
trailing generic 'Transaction failed after retries' error. -/
inductive TxOutcome (α : Type) where
  | ok (v : α)
  | storeErr (e : StoreErr)
  | exhausted
  deriving DecidableEq

/-- The retry loop of `withSerializableTransaction` (utils/transaction.ts).
`attempts i` is the outcome of the i-th `db.transaction(fn)` call; the loop
index runs while `attempt < maxRetries` (fuel = remaining iterations); on
`error.code === '40001' && attempt < maxRetries - 1` the loop sleeps
`10 * 2 ^ attempt` ms (recorded in the delay list) and retries, otherwise
the error is rethrown.  Falling off the loop yields the trailing generic
error (`exhausted`). -/
def runTxGo {α : Type} (attempts : Nat → Except StoreErr α) (maxRetries : Nat) :
    Nat → Nat → List Nat → TxOutcome α × List Nat
  | _, 0, delays => (.exhausted, delays)
  | attempt, fuel + 1, delays =>
    match attempts attempt with
    | .ok v => (.ok v, delays)
    | .error e =>
      if e.code = some "40001" ∧ attempt < maxRetries - 1 then
        runTxGo attempts maxRetries (attempt + 1) fuel (delays ++ [10 * 2 ^ attempt])
      else (.storeErr e, delays)

/-- `withSerializableTransaction(fn, maxRetries)`; the source's default for
`maxRetries` is 3. -/
def withSerializableTransaction {α : Type} (attempts : Nat → Except StoreErr α)
    (maxRetries : Nat) : TxOutcome α × List Nat :=
  runTxGo attempts maxRetries 0 maxRetries []

/-- Fee of the C1 counterexample: 987654321.123456789012345678, a
non-negative amount with exactly 18 fractional digits (and 27 significant
digits). -/
def adversarialFee : Dec := ⟨987654321123456789012345678, -18⟩

/-- C6 counterexample breakdown: the valid breakdown of F = 100 with the
cashback field changed to 10 + 10^-40 (a genuinely different value). -/
def tamperedBreakdown : Breakdown :=
  { calculateCommissionBreakdown ⟨100, 0⟩ with cashback := ⟨10 ^ 41 + 1, -40⟩ }

/-- C3 counterexample store: user "a" has no referral code and no referrer;
user "b" is a's direct referral (so "b" is in "a"'s downline) and owns code
"BCODE" at depth 1. -/
def cycleStore : UserStore :=
  [("a", ⟨none, none, 0⟩), ("b", ⟨some "a", some "BCODE", 1⟩)]

/-- C3 witness store: same shape, but "a" owns its own code "ACODE", so the
source's circular-reference check is reached. -/
def guardedStore : UserStore :=
  [("a", ⟨none, some "ACODE", 0⟩), ("b", ⟨some "a", some "BCODE", 1⟩)]

/-- C7 witness store: a three-level chain referrer1 ← level1 ← level2 ← level3. -/
def chainStore : UserStore :=
  [("referrer1", ⟨none, some "REFER123", 0⟩),
   ("level1", ⟨some "referrer1", some "LEVEL1", 1⟩),
   ("level2", ⟨some "level1", some "LEVEL2", 2⟩),
   ("level3", ⟨some "level2", some "LEVEL3", 3⟩)]

/-- C2 witness store: a trader with exactly one live referrer. -/
def soloStore : UserStore :=
  [("solo-referrer", ⟨none, some "SOLO", 0⟩),
   ("single-level-trader", ⟨some "solo-referrer", none, 1⟩)]

/-- C2 witness store: a trader with no referrer at all. -/
def standaloneStore : UserStore :=
  [("standalone", ⟨none, some "STANDALONE", 0⟩)]

/-- C4 witness row: an already-claimed commission row. -/
def claimedRow : LedgerRow := ⟨"x", "u", ⟨3, 0⟩, true, some 1⟩

/-- C5/C10 witness attempt sequence: every attempt fails with the
serialization-conflict code 40001. -/
def conflictAttempts : Nat → Except StoreErr Nat :=
  fun _ => .error ⟨some "40001"⟩

/-! ## Rounding and exact-arithmetic lemmas -/

lemma shrink_of_lt (fuel : Nat) (m e : Int) (h : m.natAbs < 10 ^ decPrec) :
    shrink fuel m e = ⟨m, e⟩ := by
  cases fuel with
  | zero => rfl
  | succ f => simp [shrink, h]

lemma roundDec_of_lt (m e : Int) (h : m.natAbs < 10 ^ decPrec) :
    roundDec ⟨m, e⟩ = ⟨m, e⟩ := shrink_of_lt _ _ _ h

lemma dMul_small (a b : Dec) (h : (a.m * b.m).natAbs < 10 ^ decPrec) :
    dMul a b = ⟨a.m * b.m, a.e + b.e⟩ := by
  unfold dMul
  exact roundDec_of_lt _ _ h

lemma dAdd_same_exp (x y e : Int) (h : (x + y).natAbs < 10 ^ decPrec) :
    dAdd ⟨x, e⟩ ⟨y, e⟩ = ⟨x + y, e⟩ := by
  unfold dAdd
  simp only [min_self, sub_self, Int.toNat_zero, pow_zero, mul_one]
  exact roundDec_of_lt _ _ h

lemma dAdd_zero_left (y e : Int) (he : e ≤ 0) (h : y.natAbs < 10 ^ decPrec) :
    dAdd ⟨0, 0⟩ ⟨y, e⟩ = ⟨y, e⟩ := by
  unfold dAdd
  simp only [min_eq_right he, sub_self, Int.toNat_zero, pow_zero, mul_one, zero_mul, zero_add]
  exact roundDec_of_lt _ _ h

/-- Evaluation of `validateCommissionSum` on a fee and breakdown whose
values are all integer multiples of 10^-20 with fewer than 10^27 in the
significand: every intermediate sum then stays within 28 significant
digits, so the folded `plus` chain is exact and validation reduces to an
integer equation. -/
lemma validate_fixed20 (mf a b c d t : Int)
    (ha : a.natAbs < 10 ^ 27) (hb : b.natAbs < 10 ^ 27) (hc : c.natAbs < 10 ^ 27)
    (hd : d.natAbs < 10 ^ 27) (ht : t.natAbs < 10 ^ 27) :
    validateCommissionSum ⟨mf, -20⟩ ⟨⟨a, -20⟩, ⟨b, -20⟩, ⟨c, -20⟩, ⟨d, -20⟩, ⟨t, -20⟩⟩
      = (a + b + c + d + t == mf) := by
  have hP : (10 : Nat) ^ decPrec = 10000000000000000000000000000 := by norm_num [decPrec]
  have h27 : (10 : Nat) ^ 27 = 1000000000000000000000000000 := by norm_num
  rw [h27] at ha hb hc hd ht
  simp only [validateCommissionSum, sumDec, List.foldl]
  rw [dAdd_zero_left _ _ (by norm_num) (by simp only [hP]; omega),
    dAdd_same_exp _ _ _ (by simp only [hP]; omega),
    dAdd_same_exp _ _ _ (by simp only [hP]; omega),
    dAdd_same_exp _ _ _ (by simp only [hP]; omega),
    dAdd_same_exp _ _ _ (by simp only [hP]; omega)]
  simp only [dEq, min_self, sub_self, Int.toNat_zero, pow_zero, mul_one]

/-! ## Upline-chain lemmas -/

lemma uplineGo_length (s : UserStore) :
    ∀ fuel ref lvl, (uplineGo s fuel ref lvl).length ≤ fuel := by
  intro fuel
  induction fuel with
  | zero => intro ref lvl; simp [uplineGo]
  | succ f ih =>
    intro ref lvl
    cases ref with
    | none => simp [uplineGo]
    | some rid =>
      simp only [uplineGo]
      cases lookupUser s rid with
      | none => simp
      | some r => simpa using ih r.referrerId (lvl + 1)

lemma uplineGo_nil_of_lookup_none (s : UserStore) (fuel : Nat) (rid : String) (lvl : Nat)
    (h : lookupUser s rid = none) : uplineGo s (fuel + 1) (some rid) lvl = [] := by
  simp [uplineGo, h]

lemma uplineGo_cons (s : UserStore) (fuel : Nat) (rid : String) (lvl : Nat) (r : UserRec)
    (h : lookupUser s rid = some r) :
    uplineGo s (fuel + 1) (some rid) lvl = (rid, lvl) :: uplineGo s fuel r.referrerId (lvl + 1) := by
  simp [uplineGo, h]

lemma uplineGo_levels (s : UserStore) :
    ∀ fuel ref lvl i (h : i < (uplineGo s fuel ref lvl).length),
      ((uplineGo s fuel ref lvl).get ⟨i, h⟩).2 = lvl + i := by
  intro fuel
  induction fuel with
  | zero => intro ref lvl i h; simp [uplineGo] at h
  | succ f ih =>
    intro ref lvl i
    cases ref with
    | none => intro h; simp [uplineGo] at h
    | some rid =>
      rcases hl : lookupUser s rid with _ | r
      · rw [uplineGo_nil_of_lookup_none s f rid lvl hl]
        intro h
        simp at h
      · rw [uplineGo_cons s f rid lvl r hl]
        intro h
        cases i with
        | zero => simp
        | succ j =>
          simp only [List.get]
          have := ih r.referrerId (lvl + 1) j (by simpa using h)
          rw [this]
          omega

lemma getUplineChain_none (s : UserStore) (uid : String)
    (hu : lookupUser s uid = none) : getUplineChain s uid = [] := by
  unfold getUplineChain
  rw [hu]

lemma getUplineChain_some (s : UserStore) (uid : String) (u : UserRec)
    (hu : lookupUser s uid = some u) :
    getUplineChain s uid = uplineGo s 3 u.referrerId 1 := by
  unfold getUplineChain
  rw [hu]

/-! ## Claim-update lemmas -/

lemma claimRowUpdate_all_claimed (rows : List LedgerRow) (rowId : String) (t : Nat) :
    ∀ r ∈ (claimRowUpdate rows rowId t).1, r.id = rowId → r.claimed = true := by
  intro r hr hid
  simp only [claimRowUpdate, List.mem_map] at hr
  obtain ⟨r0, _, rfl⟩ := hr
  by_cases hc : r0.id = rowId ∧ r0.claimed = false
  · simp [hc]
  · simp only [if_neg hc]
    simp only [if_neg hc] at hid
    rcases Bool.eq_false_or_eq_true r0.claimed with ht | hf
    · exact ht
    · exact absurd ⟨hid, hf⟩ hc

lemma claimRowUpdate_noop (rows : List LedgerRow) (rowId : String) (t : Nat)
    (h : ∀ r ∈ rows, r.id = rowId → r.claimed = true) :
    claimRowUpdate rows rowId t = (rows, 0) := by
  induction rows with
  | nil => rfl
  | cons r rest ih =>
    have hr : r.id = rowId → r.claimed = true := h r (List.mem_cons_self r rest)
    have hh : ∀ x ∈ rest, x.id = rowId → x.claimed = true := by
      intro x hx hid
      exact h x (List.mem_cons_of_mem r hx) hid
    have hrest := ih hh
    have hcond : ¬ (r.id = rowId ∧ r.claimed = false) := by
      rintro ⟨ha, hb⟩
      rw [hr ha] at hb
      cases hb
    have hbcond : (r.id == rowId && !r.claimed) = false := by
      by_cases hi : r.id = rowId
      · simp [hi, hr hi]
      · simp [hi]
    simp only [claimRowUpdate] at hrest ⊢
    simp only [List.map_cons, List.filter_cons, if_neg hcond, hbcond]
    simp only [Bool.false_eq_true, if_false]
    rw [Prod.mk.injEq] at hrest ⊢
    obtain ⟨e1, e2⟩ := hrest
    refine ⟨?_, e2⟩
    rw [e1]

/-! ## Transaction-loop lemmas -/

lemma runTxGo_surfaces {α : Type} (attempts : Nat → Except StoreErr α)
    (maxRetries : Nat) :
    ∀ fuel attempt delays, fuel + attempt = maxRetries → 1 ≤ fuel →
      ((runTxGo attempts maxRetries attempt fuel delays).1 = .exhausted → False) ∧
      (∀ e, (runTxGo attempts maxRetries attempt fuel delays).1 = .storeErr e →
        ∃ i, i < maxRetries ∧ attempts i = .error e) := by
  intro fuel
  induction fuel with
  | zero => intro attempt delays _ hge; omega
  | succ f ih =>
    intro attempt delays hsum _
    rcases ha : attempts attempt with e0 | v
    case ok =>
      constructor
      · intro hx
        simp only [runTxGo, ha] at hx
        exact TxOutcome.noConfusion hx
      · intro e hx
        simp only [runTxGo, ha] at hx
        exact TxOutcome.noConfusion hx
    case error =>
      by_cases hcond : e0.code = some "40001" ∧ attempt < maxRetries - 1
      · have hf : 1 ≤ f := by omega
        have hrec := ih (attempt + 1) (delays ++ [10 * 2 ^ attempt]) (by omega) hf
        constructor
        · intro hx
          simp only [runTxGo, ha, if_pos hcond] at hx
          exact hrec.1 hx
        · intro e hx
          simp only [runTxGo, ha, if_pos hcond] at hx
          exact hrec.2 e hx
      · constructor
        · intro hx
          simp only [runTxGo, ha, if_neg hcond] at hx
          exact TxOutcome.noConfusion hx
        · intro e hx
          simp only [runTxGo, ha, if_neg hcond] at hx
          refine ⟨attempt, by omega, ?_⟩
          injection hx with hv
          rw [ha, hv]

/-! ## Claim theorems -/

/-- C1 (counterexample): the sum invariant does not hold for every
non-negative fee amount with 18 fractional digits.  At
F = 987654321.123456789012345678 (27 significant digits) the products
`fee.times(0.30)` and `fee.times(0.55)` and the running sums exceed 28
significant digits, the ROUND_DOWN truncation loses one unit in the last
place, and `validateCommissionSum` returns false for the breakdown computed
by `calculateCommissionBreakdown` itself. -/
theorem C1_sum_invariant_counterexample :
    validateCommissionSum adversarialFee (calculateCommissionBreakdown adversarialFee)
      = false := by
  decide

/-- C1 (amended): for every non-negative fee amount expressible as
m * 10^-18 with m < 10^26 (at most 26 significant digits — in particular
every fee below 10^8 with at most 18 fractional digits), all shares and all
intermediate sums stay within 28 significant digits, the arithmetic is
exact, and `validateCommissionSum(F, calculateCommissionBreakdown(F))`
returns true. -/
theorem C1_sum_invariant_bounded (mI : Int) (h0 : 0 ≤ mI) (hm : mI < 10 ^ 26) :
    validateCommissionSum ⟨mI, -18⟩ (calculateCommissionBreakdown ⟨mI, -18⟩) = true := by
  have hP : (10 : Nat) ^ decPrec = 10000000000000000000000000000 := by norm_num [decPrec]
  have h26 : (10 : Int) ^ 26 = 100000000000000000000000000 := by norm_num
  rw [h26] at hm
  have hc : dMul ⟨mI, -18⟩ ⟨10, -2⟩ = ⟨mI * 10, -20⟩ := by
    have := dMul_small ⟨mI, -18⟩ ⟨10, -2⟩ (by simp only [hP]; omega)
    simpa using this
  have hl1 : dMul ⟨mI, -18⟩ ⟨30, -2⟩ = ⟨mI * 30, -20⟩ := by
    have := dMul_small ⟨mI, -18⟩ ⟨30, -2⟩ (by simp only [hP]; omega)
    simpa using this
  have hl2 : dMul ⟨mI, -18⟩ ⟨3, -2⟩ = ⟨mI * 3, -20⟩ := by
    have := dMul_small ⟨mI, -18⟩ ⟨3, -2⟩ (by simp only [hP]; omega)
    simpa using this
  have hl3 : dMul ⟨mI, -18⟩ ⟨2, -2⟩ = ⟨mI * 2, -20⟩ := by
    have := dMul_small ⟨mI, -18⟩ ⟨2, -2⟩ (by simp only [hP]; omega)
    simpa using this
  have ht : dMul ⟨mI, -18⟩ ⟨55, -2⟩ = ⟨mI * 55, -20⟩ := by
    have := dMul_small ⟨mI, -18⟩ ⟨55, -2⟩ (by simp only [hP]; omega)
    simpa using this
  simp only [validateCommissionSum, calculateCommissionBreakdown, COMMISSION_RATES, sumDec,
    List.foldl, hc, hl1, hl2, hl3, ht]
  rw [dAdd_zero_left _ _ (by norm_num) (by simp only [hP]; omega),
    dAdd_same_exp _ _ _ (by simp only [hP]; omega),
    dAdd_same_exp _ _ _ (by simp only [hP]; omega),
    dAdd_same_exp _ _ _ (by simp only [hP]; omega),
    dAdd_same_exp _ _ _ (by simp only [hP]; omega)]
  simp only [dEq]
  norm_num
  rw [show Int.toNat 2 = 2 from rfl]
  norm_num
  omega

/-- C1 witness: the amended theorem applied at the concrete fee
123.456789012345678901 ... here m = 123456789012345678 (i.e.
F = 0.123456789012345678). -/
theorem C1_sum_invariant_bounded_witness :
    (0 : Int) ≤ 123456789012345678 ∧ (123456789012345678 : Int) < 10 ^ 26 ∧
    validateCommissionSum ⟨123456789012345678, -18⟩
      (calculateCommissionBreakdown ⟨123456789012345678, -18⟩) = true :=
  ⟨by norm_num, by norm_num,
    C1_sum_invariant_bounded 123456789012345678 (by norm_num) (by norm_num)⟩

/-- C2: under the spec-modelled distribution engine, cashback is always the
nominal 10% share of the fee; a level with no live upline member never
appears among the emitted commissions, and its nominal share is folded into
the treasury output; concretely, for F = 100 with exactly one live referrer
the result is one level-1 commission of 30.00 to that referrer, cashback
10.00 and treasury 60.00, and for F = 100 with no referrer at all it is
zero commissions, cashback 10.00 and treasury 90.00. -/
theorem C2_distribution_absorbs_missing_levels (s : UserStore) (uid : String) (fee : Dec) :
    ((calculateCommissions s uid fee).cashbackAmount = dMul fee COMMISSION_RATES.CASHBACK) ∧
    (∀ lvl, ((getUplineChain s uid).map Prod.snd).contains lvl = false →
      ∀ entry ∈ (calculateCommissions s uid fee).commissions, entry.level ≠ lvl) ∧
    ((calculateCommissions s uid fee).treasuryAmount =
      ((([1, 2, 3].filter
        (fun lvl => !(((getUplineChain s uid).map Prod.snd).contains lvl))).map
        (nominalShare (calculateCommissionBreakdown fee))).foldl dAdd
        (dMul fee COMMISSION_RATES.TREASURY))) ∧
    ((calculateCommissions soloStore "single-level-trader" ⟨100, 0⟩).commissions =
      [⟨"solo-referrer", 1, ⟨3000, -2⟩⟩] ∧
     dEq (calculateCommissions soloStore "single-level-trader" ⟨100, 0⟩).cashbackAmount
       ⟨10, 0⟩ = true ∧
     dEq (calculateCommissions soloStore "single-level-trader" ⟨100, 0⟩).treasuryAmount
       ⟨60, 0⟩ = true) ∧
    ((calculateCommissions standaloneStore "standalone" ⟨100, 0⟩).commissions = [] ∧
     dEq (calculateCommissions standaloneStore "standalone" ⟨100, 0⟩).cashbackAmount
       ⟨10, 0⟩ = true ∧
     dEq (calculateCommissions standaloneStore "standalone" ⟨100, 0⟩).treasuryAmount
       ⟨90, 0⟩ = true) := by
  refine ⟨rfl, ?_, rfl, by decide, by decide⟩
  intro lvl hlvl entry hmem
  simp only [calculateCommissions, List.mem_map] at hmem
  obtain ⟨p, hp, rfl⟩ := hmem
  intro hEq
  have hmem2 : lvl ∈ (getUplineChain s uid).map Prod.snd := by
    simp only [List.mem_map]
    exact ⟨p, hp, hEq⟩
  have hcont : ((getUplineChain s uid).map Prod.snd).contains lvl = true := by
    simpa using hmem2
  rw [hlvl] at hcont
  exact Bool.false_ne_true hcont

/-- C2 witness: in the one-referrer store, level 2 is not live, and the
single emitted commission is indeed not a level-2 commission. -/
theorem C2_distribution_witness :
    (⟨"solo-referrer", 1, ⟨3000, -2⟩⟩ : CommissionEntry).level ≠ 2 :=
  (C2_distribution_absorbs_missing_levels soloStore "single-level-trader" ⟨100, 0⟩).2.1
    2 (by decide) ⟨"solo-referrer", 1, ⟨3000, -2⟩⟩ (by decide)

/-- C3 (counterexample): registration is NOT rejected whenever the referrer
is in the caller's downline.  In `cycleStore`, "b" is in "a"'s downline
("b"'s referrer is "a"), yet because "a" has no referral code of its own the
source skips the circular-reference check and the registration succeeds,
writing "a".referrerId = "b" and creating the cycle a → b → a. -/
theorem C3_circular_counterexample :
    inDownline cycleStore "a" "b" = true ∧
    (register cycleStore "a" "BCODE").toOption =
      some [("a", ⟨some "b", none, 2⟩),
            ("b", ⟨some "a", some "BCODE", 1⟩)] := by
  decide

/-- C3 (amended): when the caller's own `referralCode` is set (truthy) — the
only situation in which the source runs its downline check — and the
registration reaches that check (caller exists, has no referrer yet, the
normalized input code is well-formed and resolves to a referrer B distinct
from the caller with depth < 3), then if B lies in the caller's downline the
registration fails with `CircularReference`, and since `register` only
returns a new store on the `.ok` path, no write to the caller's referrer or
depth occurs. -/
theorem C3_circular_reference_rejected (s : UserStore) (uid code : String) (cu : UserRec)
    (h1 : lookupUser s uid = some cu)
    (h2 : cu.referrerId = none)
    (h3 : truthy cu.referralCode = true)
    (h4 : isValidReferralCodeFormat (normalizeReferralCode code) = true)
    (rid : String) (r : UserRec)
    (h5 : findByCode s (normalizeReferralCode code) = some (rid, r))
    (h6 : rid ≠ uid)
    (h7 : r.referralDepth < 3)
    (h8 : inDownline s uid rid = true) :
    register s uid code = .error .CircularReference := by
  unfold register
  rw [h1]
  simp [h2, h3, h4, h5, h8, if_neg h6, Nat.not_le.mpr h7]

/-- C3 witness: in `guardedStore` user "a" owns a code, "b" is in "a"'s
downline, and registering "a" under "b"'s code is rejected with
`CircularReference`. -/
theorem C3_circular_rejected_witness :
    register guardedStore "a" "BCODE" = .error .CircularReference := by
  refine C3_circular_reference_rejected guardedStore "a" "BCODE"
    ⟨none, some "ACODE", 0⟩ ?_ ?_ ?_ ?_ "b" ⟨some "a", some "BCODE", 1⟩ ?_ ?_ ?_ ?_ <;>
    decide

/-- C4: under the spec-modelled conditional claim update (`SET claimed =
true, claimed_at = now WHERE id = ... AND claimed = false`), a row is
claimed at most once: when every row with the id is already claimed the
update affects zero rows and changes nothing (amount, claimed flag and
claimedAt included), and in particular any second claim of the same id is
always such a no-op. -/
theorem C4_claim_at_most_once (rows : List LedgerRow) (rowId : String) (t1 t2 : Nat) :
    ((∀ r ∈ rows, r.id = rowId → r.claimed = true) →
      claimRowUpdate rows rowId t1 = (rows, 0)) ∧
    (claimRowUpdate (claimRowUpdate rows rowId t1).1 rowId t2 =
      ((claimRowUpdate rows rowId t1).1, 0)) := by
  refine ⟨claimRowUpdate_noop rows rowId t1, ?_⟩
  exact claimRowUpdate_noop _ rowId t2 (claimRowUpdate_all_claimed rows rowId t1)

/-- C4 witness: claiming an already-claimed row affects zero rows and
leaves the row unchanged. -/
theorem C4_claim_at_most_once_witness :
    claimRowUpdate [claimedRow] "x" 7 = ([claimedRow], 0) :=
  (C4_claim_at_most_once [claimedRow] "x" 7 0).1 (by decide)

/-- C5: retry policy of `withSerializableTransaction` at the default
maxRetries = 3.  A first-attempt failure whose code is not '40001' is
surfaced immediately with no retry and no backoff delay; a '40001' failure
is retried after a 10ms backoff, and a subsequent non-'40001' failure is
surfaced without further retries; three consecutive failures make exactly
3 attempts with backoff delays 10ms then 20ms (doubling), after which the
last error is surfaced. -/
theorem C5_retry_policy {α : Type} (attempts : Nat → Except StoreErr α)
    (e0 e1 e2 : StoreErr) :
    (attempts 0 = .error e0 → e0.code ≠ some "40001" →
      withSerializableTransaction attempts 3 = (.storeErr e0, [])) ∧
    (attempts 0 = .error e0 → e0.code = some "40001" →
      attempts 1 = .error e1 → e1.code ≠ some "40001" →
      withSerializableTransaction attempts 3 = (.storeErr e1, [10])) ∧
    (attempts 0 = .error e0 → e0.code = some "40001" →
      attempts 1 = .error e1 → e1.code = some "40001" →
      attempts 2 = .error e2 →
      withSerializableTransaction attempts 3 = (.storeErr e2, [10, 20])) := by
  unfold withSerializableTransaction
  refine ⟨?_, ?_, ?_⟩
  · intro h0 hc
    show runTxGo attempts 3 0 (2 + 1) [] = (.storeErr e0, [])
    simp only [runTxGo, h0]
    rw [if_neg]
    rintro ⟨hcode, _⟩
    exact hc hcode
  · intro h0 hc0 h1 hc1
    show runTxGo attempts 3 0 (2 + 1) [] = (.storeErr e1, [10])
    simp only [runTxGo, h0]
    rw [if_pos ⟨hc0, by norm_num⟩]
    show runTxGo attempts 3 1 (1 + 1) [10 * 2 ^ 0] = (.storeErr e1, [10])
    simp only [runTxGo, h1]
    rw [if_neg]
    · norm_num
    · rintro ⟨hcode, _⟩
      exact hc1 hcode
  · intro h0 hc0 h1 hc1 h2
    show runTxGo attempts 3 0 (2 + 1) [] = (.storeErr e2, [10, 20])
    simp only [runTxGo, h0]
    rw [if_pos ⟨hc0, by norm_num⟩]
    show runTxGo attempts 3 1 (1 + 1) [10 * 2 ^ 0] = (.storeErr e2, [10, 20])
    simp only [runTxGo, h1]
    rw [if_pos ⟨hc1, by norm_num⟩]
    show runTxGo attempts 3 2 (0 + 1) [10 * 2 ^ 0, 10 * 2 ^ 1] = (.storeErr e2, [10, 20])
    simp only [runTxGo, h2]
    rw [if_neg]
    · norm_num
    · rintro ⟨_, hlt⟩
      omega

/-- C5 witness: with every attempt failing on the conflict code 40001, the
wrapper makes exactly 3 attempts with backoff delays 10 and 20 ms and then
surfaces the conflict error itself. -/
theorem C5_retry_policy_witness :
    withSerializableTransaction conflictAttempts 3 =
      (.storeErr ⟨some "40001"⟩, [10, 20]) :=
  (C5_retry_policy conflictAttempts ⟨some "40001"⟩ ⟨some "40001"⟩ ⟨some "40001"⟩).2.2
    rfl rfl rfl rfl rfl

/-- C6 (counterexample): tamper detection does not catch every single-field
change.  For F = 100, replacing the cashback field 10 of the valid breakdown
by the different value 10 + 10^-40 still passes validation: the summation
rounds each partial sum to 28 significant digits (ROUND_DOWN), the 10^-40
perturbation is truncated away, and `validateCommissionSum` still returns
true. -/
theorem C6_tamper_counterexample :
    dEq tamperedBreakdown.cashback (calculateCommissionBreakdown ⟨100, 0⟩).cashback
      = false ∧
    validateCommissionSum ⟨100, 0⟩ (calculateCommissionBreakdown ⟨100, 0⟩) = true ∧
    validateCommissionSum ⟨100, 0⟩ tamperedBreakdown = true := by
  decide

/-- C6 (amended): single-field tamper detection holds on the fixed-point
domain of values m * 10^-20 with |m| < 10^27 (which contains every computed
breakdown of a fee below 10^7 with up to 18 fractional digits): for any
valid breakdown over this domain, changing exactly one of the five fields
to any different value in the domain makes `validateCommissionSum` return
false.  (Outside this domain a perturbation below the 28-significant-digit
window of the running sum escapes detection, as the counterexample shows.) -/
theorem C6_tamper_detection_bounded (mf a b c d t x : Int)
    (ha : a.natAbs < 10 ^ 27) (hb : b.natAbs < 10 ^ 27) (hc : c.natAbs < 10 ^ 27)
    (hd : d.natAbs < 10 ^ 27) (ht : t.natAbs < 10 ^ 27) (hx : x.natAbs < 10 ^ 27)
    (hvalid : validateCommissionSum ⟨mf, -20⟩
      ⟨⟨a, -20⟩, ⟨b, -20⟩, ⟨c, -20⟩, ⟨d, -20⟩, ⟨t, -20⟩⟩ = true) :
    (x ≠ a → validateCommissionSum ⟨mf, -20⟩
      ⟨⟨x, -20⟩, ⟨b, -20⟩, ⟨c, -20⟩, ⟨d, -20⟩, ⟨t, -20⟩⟩ = false) ∧
    (x ≠ b → validateCommissionSum ⟨mf, -20⟩
      ⟨⟨a, -20⟩, ⟨x, -20⟩, ⟨c, -20⟩, ⟨d, -20⟩, ⟨t, -20⟩⟩ = false) ∧
    (x ≠ c → validateCommissionSum ⟨mf, -20⟩
      ⟨⟨a, -20⟩, ⟨b, -20⟩, ⟨x, -20⟩, ⟨d, -20⟩, ⟨t, -20⟩⟩ = false) ∧
    (x ≠ d → validateCommissionSum ⟨mf, -20⟩
      ⟨⟨a, -20⟩, ⟨b, -20⟩, ⟨c, -20⟩, ⟨x, -20⟩, ⟨t, -20⟩⟩ = false) ∧
    (x ≠ t → validateCommissionSum ⟨mf, -20⟩
      ⟨⟨a, -20⟩, ⟨b, -20⟩, ⟨c, -20⟩, ⟨d, -20⟩, ⟨x, -20⟩⟩ = false) := by
  rw [validate_fixed20 _ _ _ _ _ _ ha hb hc hd ht, beq_iff_eq] at hvalid
  refine ⟨fun hne => ?_, fun hne => ?_, fun hne => ?_, fun hne => ?_, fun hne => ?_⟩ <;>
    [rw [validate_fixed20 _ _ _ _ _ _ hx hb hc hd ht];
     rw [validate_fixed20 _ _ _ _ _ _ ha hx hc hd ht];
     rw [validate_fixed20 _ _ _ _ _ _ ha hb hx hd ht];
     rw [validate_fixed20 _ _ _ _ _ _ ha hb hc hx ht];
     rw [validate_fixed20 _ _ _ _ _ _ ha hb hc hd hx]] <;>
    · rw [beq_eq_false_iff_ne]
      omega

/-- C6 witness: for F = 100 (as 10^22 * 10^-20) and its valid breakdown
(10, 30, 3, 2, 55), replacing cashback by the different in-domain value 50
makes validation return false. -/
theorem C6_tamper_detection_witness :
    validateCommissionSum ⟨10 ^ 22, -20⟩
      ⟨⟨5 * 10 ^ 21, -20⟩, ⟨3 * 10 ^ 21, -20⟩, ⟨3 * 10 ^ 20, -20⟩, ⟨2 * 10 ^ 20, -20⟩,
        ⟨55 * 10 ^ 20, -20⟩⟩ = false :=
  (C6_tamper_detection_bounded (10 ^ 22) (10 ^ 21) (3 * 10 ^ 21) (3 * 10 ^ 20)
    (2 * 10 ^ 20) (55 * 10 ^ 20) (5 * 10 ^ 21)
    (by norm_num) (by norm_num) (by norm_num) (by norm_num) (by norm_num) (by norm_num)
    (by decide)).1 (by norm_num)

/-- C7: the upline-chain query returns at most 3 ancestors; the entry at
position i carries level i + 1 (so level 1 comes first and levels strictly
increase with distance); the chain is empty when the user does not exist or
has no referrer; and when the user has a referrer that exists in the store,
the first entry is that immediate referrer at level 1. -/
theorem C7_upline_chain_contract (s : UserStore) (uid : String) :
    ((getUplineChain s uid).length ≤ 3) ∧
    (∀ i (h : i < (getUplineChain s uid).length),
      ((getUplineChain s uid).get ⟨i, h⟩).2 = i + 1) ∧
    (lookupUser s uid = none → getUplineChain s uid = []) ∧
    (∀ u, lookupUser s uid = some u → u.referrerId = none → getUplineChain s uid = []) ∧
    (∀ u rid r, lookupUser s uid = some u → u.referrerId = some rid →
      lookupUser s rid = some r → (getUplineChain s uid).head? = some (rid, 1)) := by
  refine ⟨?_, ?_, ?_, ?_, ?_⟩
  · cases hu : lookupUser s uid with
    | none => rw [getUplineChain_none s uid hu]; simp
    | some u => rw [getUplineChain_some s uid u hu]; exact uplineGo_length s 3 u.referrerId 1
  · intro i h
    rcases hu : lookupUser s uid with _ | u
    · rw [getUplineChain_none s uid hu] at h
      simp at h
    · have hs := getUplineChain_some s uid u hu
      revert h
      rw [hs]
      intro h
      have := uplineGo_levels s 3 u.referrerId 1 i h
      rw [this]
      omega
  · exact getUplineChain_none s uid
  · intro u hu hr
    rw [getUplineChain_some s uid u hu, hr]
    rfl
  · intro u rid r hu hr hrr
    rw [getUplineChain_some s uid u hu, hr,
      show (3 : Nat) = 2 + 1 from rfl, uplineGo_cons s 2 rid 1 r hrr]
    rfl

/-- C7 witness: in the three-level chain store, the chain of "level3" starts
with its immediate referrer "level2" at level 1. -/
theorem C7_upline_chain_witness :
    (getUplineChain chainStore "level3").head? = some ("level2", 1) :=
  (C7_upline_chain_contract chainStore "level3").2.2.2.2
    ⟨some "level2", some "LEVEL3", 3⟩ "level2" ⟨some "level1", some "LEVEL2", 2⟩
    (by decide) (by decide) (by decide)

/-- C8: the decimal-string round trip is lossless for every value with at
most 18 fractional digits (the hypothesis says the value m * 10^e is an
integer multiple of 10^-18; no significant-digit bound is even needed):
`decimal(toDecimalString(x))` equals x under exact-decimal equality. -/
theorem C8_decimal_string_roundtrip (m e : Int)
    (h : -18 ≤ e ∨ ((10 : Int) ^ (-18 - e).toNat ∣ m)) :
    dEq (roundTripDecimalString ⟨m, e⟩) ⟨m, e⟩ = true := by
  by_cases he : -18 ≤ e
  · simp only [roundTripDecimalString, toFixed18, he, if_pos, dEq]
    rw [min_eq_left he]
    simp only [sub_self, Int.toNat_zero, pow_zero, mul_one, beq_iff_eq]
    have h18 : (e + 18).toNat = (e - -18).toNat := by omega
    rw [h18]
  · have hd : (10 : Int) ^ (-18 - e).toNat ∣ m := h.resolve_left he
    obtain ⟨q, hq⟩ := hd
    have hpow : (0 : Int) < 10 ^ (-18 - e).toNat := pow_pos (by norm_num) _
    simp only [roundTripDecimalString, toFixed18, he, if_neg, dEq, not_false_iff]
    rw [hq, Int.mul_tdiv_cancel_left _ (ne_of_gt hpow)]
    rw [min_eq_right (by omega : e ≤ -18)]
    simp only [sub_self, Int.toNat_zero, pow_zero, mul_one, beq_iff_eq]
    ring

/-- C8 witness: the value 5000 * 10^-21 = 5 * 10^-18 has at most 18
fractional digits, and its string round trip is lossless. -/
theorem C8_decimal_string_roundtrip_witness :
    dEq (roundTripDecimalString ⟨5000, -21⟩) ⟨5000, -21⟩ = true :=
  C8_decimal_string_roundtrip 5000 (-21) (Or.inr ⟨5, by decide⟩)

/-- C9: the five global commission rate constants are exactly
cashback = 0.10, level1 = 0.30, level2 = 0.03, level3 = 0.02,
treasury (base) = 0.55, and their sum — computed through the configured
exact-decimal arithmetic (`sum`, i.e. folded `plus`) — equals exactly 1.00. -/
theorem C9_commission_rates_sum_to_one :
    dEq COMMISSION_RATES.CASHBACK ⟨10, -2⟩ = true ∧
    dEq COMMISSION_RATES.LEVEL_1 ⟨30, -2⟩ = true ∧
    dEq COMMISSION_RATES.LEVEL_2 ⟨3, -2⟩ = true ∧
    dEq COMMISSION_RATES.LEVEL_3 ⟨2, -2⟩ = true ∧
    dEq COMMISSION_RATES.TREASURY ⟨55, -2⟩ = true ∧
    dEq (sumDec [COMMISSION_RATES.CASHBACK, COMMISSION_RATES.LEVEL_1,
      COMMISSION_RATES.LEVEL_2, COMMISSION_RATES.LEVEL_3,
      COMMISSION_RATES.TREASURY]) ⟨1, 0⟩ = true := by
  decide

/-- C10: for every maxRetries ≥ 1, `withSerializableTransaction` never
reaches the trailing generic 'Transaction failed after retries' error, and
every failing execution surfaces an error produced by one of the transaction
attempts themselves (including a raw 40001 conflict error on the final
attempt). -/
theorem C10_no_generic_failure {α : Type} (attempts : Nat → Except StoreErr α)
    (maxRetries : Nat) (h : 1 ≤ maxRetries) :
    ((withSerializableTransaction attempts maxRetries).1 = .exhausted → False) ∧
    (∀ e, (withSerializableTransaction attempts maxRetries).1 = .storeErr e →
      ∃ i, i < maxRetries ∧ attempts i = .error e) := by
  have hgo := runTxGo_surfaces attempts maxRetries maxRetries 0 [] (by omega) h
  exact ⟨hgo.1, fun e he => hgo.2 e he⟩

/-- C10 witness: with all attempts failing on 40001 and maxRetries = 3, the
surfaced outcome is not the trailing generic error. -/
theorem C10_no_generic_failure_witness :
    (withSerializableTransaction conflictAttempts 3).1 ≠ TxOutcome.exhausted :=
  (C10_no_generic_failure conflictAttempts 3 (by norm_num)).1
